import Mathlib

/-!
Verification of the D3 workshop leader board core (src/pages/Index.tsx):
the data model, the ranking comparator of `sortedTeams`, the milestone
toggle state machine with its derived total-time computation, the team
registry operations, the session timer reading, and the persistence
round-trip.

Modelling conventions.  Timestamps are natural numbers of milliseconds
since the epoch (the value `Date.prototype.getTime` returns); a `Date`
value is stored as that number.  Team identifiers are produced by the
source as `Date.now().toString()` and consumed through `parseInt`, which
on such decimal strings recovers exactly the underlying number, so the
model stores the number itself.  JavaScript number subtraction on these
values is exact integer subtraction, modelled with `Int`.
-/

/-- Milestone record (interface `Milestone`).  `completedAt` is the optional
completion timestamp; the absent field (`undefined`) is `none`. -/
structure Milestone where
  id : Nat
  title : String
  subtitle : String
  completed : Bool
  completedAt : Option Nat
deriving DecidableEq

/-- Team record (interface `Team`).  `totalTime` is a signed number of
milliseconds, as the source computes it by plain subtraction. -/
structure Team where
  id : Nat
  name : String
  milestones : List Milestone
  totalTime : Int
deriving DecidableEq

/-- The fixed milestone template `INITIAL_MILESTONES`. -/
def INITIAL_MILESTONES : List Milestone :=
  [ { id := 1, title := "Kickstart Together",
      subtitle := "Get the project rolling with a shared vision.",
      completed := false, completedAt := none },
    { id := 2, title := "Prototype in Action",
      subtitle := "Build a simple, working model of your idea.",
      completed := false, completedAt := none },
    { id := 3, title := "Catalyst Launchpad",
      subtitle := "Deploy your prototype seamlessly on Zoho Catalyst.",
      completed := false, completedAt := none } ]

/-- Number of completed milestones of a team:
`a.milestones.filter((m) => m.completed).length`. -/
def completedCount (t : Team) : Nat :=
  (t.milestones.filter fun m => m.completed).length

/-- The completed milestones that carry a timestamp:
`a.milestones.filter((m) => m.completed && m.completedAt)`. -/
def completedWithTime (t : Team) : List Milestone :=
  t.milestones.filter fun m => m.completed && m.completedAt.isSome

/-- `Math.max` over a list of naturals.  The source applies it only to
nonempty lists of timestamps, where the `0` base case is absorbed. -/
def listMax (l : List Nat) : Nat :=
  l.foldr max 0

/-- Most recent completion timestamp of a team:
`Math.max(...completedMilestones.map((m) => m.completedAt.getTime()))`. -/
def latestCompletion (t : Team) : Nat :=
  listMax ((completedWithTime t).map fun m => m.completedAt.getD 0)

/-- The ranking comparator: the callback passed to `sort` in `sortedTeams`.
Primary: completed count, descending.  Secondary (both sides have a
timestamped completion): latest completion, ascending.  Tertiary:
`parseInt(a.id) - parseInt(b.id)`. -/
def rankCompare (a b : Team) : Int :=
  let aCompleted := completedCount a
  let bCompleted := completedCount b
  if aCompleted ≠ bCompleted then
    (bCompleted : Int) - (aCompleted : Int)
  else if 0 < (completedWithTime a).length ∧ 0 < (completedWithTime b).length then
    (latestCompletion a : Int) - (latestCompletion b : Int)
  else
    (a.id : Int) - (b.id : Int)

/-- The per-milestone update performed inside `toggleMilestone`: flip the
targeted milestone, stamping or clearing `completedAt`. -/
def updateMilestone (now milestoneId : Nat) (milestone : Milestone) : Milestone :=
  if milestone.id = milestoneId then
    let isCompleting := !milestone.completed
    { milestone with
      completed := isCompleting,
      completedAt := if isCompleting then some now else none }
  else milestone

/-- The body of `toggleMilestone` for the team whose id matches: update the
milestones, then recompute `totalTime`.  `now` is the wall clock at the
call (`new Date()`), `startTime` the session start (`timer.getTime()`). -/
def toggleMilestoneInTeam (now startTime milestoneId : Nat) (team : Team) : Team :=
  let updatedMilestones := team.milestones.map (updateMilestone now milestoneId)
  let completedMilestones :=
    updatedMilestones.filter fun m => m.completed && m.completedAt.isSome
  let totalTime : Int :=
    if completedMilestones.length = 3 then
      (listMax (completedMilestones.map fun m => m.completedAt.getD 0) : Int)
        - (startTime : Int)
    else 0
  { team with milestones := updatedMilestones, totalTime := totalTime }

/-- `toggleMilestone(teamId, milestoneId)` over the whole registry. -/
def toggleMilestone (now startTime teamId milestoneId : Nat)
    (teams : List Team) : List Team :=
  teams.map fun team =>
    if team.id = teamId then toggleMilestoneInTeam now startTime milestoneId team
    else team

/-- Model of the JavaScript builtin `String.prototype.trim`: drop leading
and trailing whitespace characters. -/
def jsTrim (s : String) : String :=
  String.mk
    (((s.data.dropWhile Char.isWhitespace).reverse.dropWhile
        Char.isWhitespace).reverse)

/-- `addTeam()`: a name that trims to the empty (falsy) string is rejected;
otherwise a fresh team is appended whose id is the creation instant
`Date.now()` and whose milestones are a clone of the template (cloning is
the identity on immutable model values). -/
def addTeam (now : Nat) (newTeamName : String) (teams : List Team) : List Team :=
  if jsTrim newTeamName ≠ "" then
    teams ++ [{ id := now, name := jsTrim newTeamName,
                milestones := INITIAL_MILESTONES, totalTime := 0 }]
  else teams

/-! ### Persistence: the `"teams"` entry of the key-value store

`JSON.stringify(teams)` serializes each `Date` to a textual timestamp and
drops `undefined` fields; the load path maps
`m.completedAt ? new Date(m.completedAt) : undefined` over the parsed
records, restoring numeric timestamps.  The textual timestamp form is
modelled as the decimal rendering of the millisecond value, which has the
same precision (exact milliseconds) as the ISO form the platform emits;
the JSON tree/text conversion itself is the platform inverse pair and is
kept at the tree level.  An `Invalid Date` result of parsing is `none`. -/

/-- Digit character for a digit value below ten. -/
def digitChar (d : Nat) : Char :=
  Char.ofNat (48 + d)

/-- Inverse of `digitChar` on characters, `none` on non-digit characters. -/
def charToDigit (c : Char) : Option Nat :=
  if 48 ≤ c.toNat ∧ c.toNat ≤ 57 then some (c.toNat - 48) else none

/-- Textual (decimal) rendering of a millisecond timestamp: the textual
form a timestamp takes inside the serialized store entry. -/
def dateToText (n : Nat) : String :=
  if n = 0 then "0" else String.mk (((Nat.digits 10 n).reverse).map digitChar)

/-- Digit values of a character list, `none` when any character is not a
digit. -/
def parseDigits : List Char → Option (List Nat)
  | [] => some []
  | c :: cs =>
    match charToDigit c, parseDigits cs with
    | some d, some ds => some (d :: ds)
    | _, _ => none

/-- Parse a textual timestamp back to milliseconds; `none` models the
JavaScript `Invalid Date` (and the falsy empty string). -/
def textToDate (s : String) : Option Nat :=
  match parseDigits s.data with
  | some ds => if ds.isEmpty then none else some (Nat.ofDigits 10 ds.reverse)
  | none => none

/-- A milestone as it sits in the serialized store entry. -/
structure StoredMilestone where
  id : Nat
  title : String
  subtitle : String
  completed : Bool
  completedAt : Option String
deriving DecidableEq

/-- A team as it sits in the serialized store entry. -/
structure StoredTeam where
  id : Nat
  name : String
  milestones : List StoredMilestone
  totalTime : Int
deriving DecidableEq

/-- Serialization of one milestone (`JSON.stringify` member). -/
def storeMilestone (m : Milestone) : StoredMilestone :=
  { id := m.id, title := m.title, subtitle := m.subtitle,
    completed := m.completed, completedAt := m.completedAt.map dateToText }

/-- Serialization of one team. -/
def storeTeam (t : Team) : StoredTeam :=
  { id := t.id, name := t.name, milestones := t.milestones.map storeMilestone,
    totalTime := t.totalTime }

/-- Serialization of the registry: the value written by
`localStorage.setItem("teams", JSON.stringify(teams))`. -/
def storeTeams (ts : List Team) : List StoredTeam :=
  ts.map storeTeam

/-- Deserialization of one milestone:
`{...m, completedAt: m.completedAt ? new Date(m.completedAt) : undefined}`. -/
def loadMilestone (m : StoredMilestone) : Milestone :=
  { id := m.id, title := m.title, subtitle := m.subtitle,
    completed := m.completed,
    completedAt := match m.completedAt with
      | some s => textToDate s
      | none => none }

/-- Deserialization of one team. -/
def loadTeam (t : StoredTeam) : Team :=
  { id := t.id, name := t.name, milestones := t.milestones.map loadMilestone,
    totalTime := t.totalTime }

/-- The possible states of the persisted `"teams"` entry: absent
(`localStorage.getItem` returns null), present but not parseable as a
stored team array (`JSON.parse` or the subsequent `map` throws), or a
well-formed stored team array. -/
inductive StoredValue where
  | missing
  | malformed
  | teams (ts : List StoredTeam)
deriving DecidableEq

/-- The `useState` initializer for `teams`: a missing entry yields `[]`, a
malformed entry is caught and yields `[]`, a well-formed entry is mapped
back through `loadTeam`. -/
def loadStored (v : StoredValue) : List Team :=
  match v with
  | StoredValue.missing => []
  | StoredValue.malformed => []
  | StoredValue.teams ts => ts.map loadTeam

/-! ### Component state and the reset / persist / timer effects -/

/-- The core component state: the registry, the persisted mirror, and the
session timer (`timer` is the recorded start instant, `timerStarted` the
running flag). -/
structure AppState where
  teams : List Team
  storedTeams : StoredValue
  timer : Nat
  timerStarted : Bool
deriving DecidableEq

/-- `handleResetData`: remove the persisted entry, clear the registry,
stop the session timer.  The model applies the three writes as one
transition, as the handler body runs without interruption. -/
def handleResetData (s : AppState) : AppState :=
  { s with teams := [], storedTeams := StoredValue.missing,
           timerStarted := false }

/-- The persist effect: after every change of `teams` the registry is
mirrored to the store (`localStorage.setItem("teams", ...)`). -/
def persistTeamsEffect (s : AppState) : AppState :=
  { s with storedTeams := StoredValue.teams (storeTeams s.teams) }

/-- The elapsed seconds the session timer reports at wall-clock `now`:
`Math.floor((Date.now() - timer.getTime()) / 1000)` while running, and `0`
when the timer is not started. -/
def elapsedOf (s : AppState) (now : Nat) : Int :=
  if s.timerStarted then ((now : Int) - (s.timer : Int)).fdiv 1000 else 0

/-! ### Invariants -/

/-- The milestone invariant: the completion timestamp is present exactly
when the milestone is completed. -/
def milestoneInv (m : Milestone) : Prop :=
  m.completedAt.isSome = m.completed

/-- A team all of whose milestones satisfy the milestone invariant. -/
def teamInv (t : Team) : Prop :=
  ∀ m ∈ t.milestones, milestoneInv m

/-- A registry all of whose teams satisfy the milestone invariant. -/
def teamsInv (ts : List Team) : Prop :=
  ∀ t ∈ ts, teamInv t

instance (m : Milestone) : Decidable (milestoneInv m) := by
  unfold milestoneInv; infer_instance

instance (t : Team) : Decidable (teamInv t) := by
  unfold teamInv; infer_instance

instance (ts : List Team) : Decidable (teamsInv ts) := by
  unfold teamsInv; infer_instance

/-- The largest completion timestamp a team carries, over all milestones
that have one: the claim-side reading of "maximum completedAt among its
milestones". -/
def maxCompletedAt (t : Team) : Nat :=
  listMax (t.milestones.filterMap fun m => m.completedAt)

/-! ### Helper lemmas -/

lemma charToDigit_digitChar {d : Nat} (h : d < 10) :
    charToDigit (digitChar d) = some d := by
  interval_cases d <;> decide

lemma parseDigits_map_digitChar (ds : List Nat) (h : ∀ d ∈ ds, d < 10) :
    parseDigits (ds.map digitChar) = some ds := by
  induction ds with
  | nil => rfl
  | cons d ds ih =>
    have hd : d < 10 := h d (by simp)
    have hds : ∀ x ∈ ds, x < 10 := fun x hx => h x (by simp [hx])
    simp [parseDigits, charToDigit_digitChar hd, ih hds]

lemma textToDate_dateToText (n : Nat) : textToDate (dateToText n) = some n := by
  by_cases h0 : n = 0
  · subst h0; decide
  · have hlt : ∀ d ∈ (Nat.digits 10 n).reverse, d < 10 := fun d hd =>
      Nat.digits_lt_base (by norm_num) (List.mem_reverse.mp hd)
    have hne : (Nat.digits 10 n).reverse ≠ [] := by
      simp [Nat.digits_ne_nil_iff_ne_zero, h0]
    unfold dateToText
    rw [if_neg h0]
    unfold textToDate
    rw [show (String.mk ((Nat.digits 10 n).reverse.map digitChar)).data
          = (Nat.digits 10 n).reverse.map digitChar from rfl]
    rw [parseDigits_map_digitChar _ hlt]
    simp [List.isEmpty_iff, hne, Nat.ofDigits_digits]

lemma loadMilestone_storeMilestone (m : Milestone) :
    loadMilestone (storeMilestone m) = m := by
  obtain ⟨i, ti, su, c, ca⟩ := m
  cases ca with
  | none => rfl
  | some t => simp [loadMilestone, storeMilestone, textToDate_dateToText]

lemma loadTeam_storeTeam (t : Team) : loadTeam (storeTeam t) = t := by
  obtain ⟨i, n, ms, tt⟩ := t
  have hcomp : loadMilestone ∘ storeMilestone = id :=
    funext loadMilestone_storeMilestone
  simp [loadTeam, storeTeam, List.map_map, hcomp]

lemma completedWithTime_eq_filter {t : Team} (h : teamInv t) :
    completedWithTime t = t.milestones.filter fun m => m.completed := by
  unfold completedWithTime
  apply List.filter_congr
  intro m hm
  have hinv : m.completedAt.isSome = m.completed := h m hm
  rw [hinv, Bool.and_self]

lemma completedWithTime_length {t : Team} (h : teamInv t) :
    (completedWithTime t).length = completedCount t := by
  rw [completedWithTime_eq_filter h]; rfl

lemma rankCompare_eq {a b : Team} (ha : teamInv a) (hb : teamInv b) :
    rankCompare a b =
      if completedCount a ≠ completedCount b then
        (completedCount b : Int) - (completedCount a : Int)
      else if 0 < completedCount a ∧ 0 < completedCount b then
        (latestCompletion a : Int) - (latestCompletion b : Int)
      else (a.id : Int) - (b.id : Int) := by
  simp only [rankCompare]
  rw [completedWithTime_length ha, completedWithTime_length hb]

lemma rankCompare_neg (a b : Team) : rankCompare a b = -(rankCompare b a) := by
  simp only [rankCompare]
  split_ifs <;> omega

lemma rankCompare_trans {a b c : Team}
    (ha : teamInv a) (hb : teamInv b) (hc : teamInv c)
    (h1 : rankCompare a b < 0) (h2 : rankCompare b c < 0) :
    rankCompare a c < 0 := by
  rw [rankCompare_eq ha hb] at h1
  rw [rankCompare_eq hb hc] at h2
  rw [rankCompare_eq ha hc]
  split_ifs at h1 h2 ⊢ <;> omega

lemma le_listMax {a : Nat} {l : List Nat} (h : a ∈ l) : a ≤ listMax l := by
  induction l with
  | nil => cases h
  | cons x xs ih =>
    rcases List.mem_cons.mp h with rfl | hmem
    · exact le_max_left _ _
    · exact le_trans (ih hmem) (le_max_right _ _)

lemma all_of_length_filter_eq {l : List Milestone} {p : Milestone → Bool}
    (h : (l.filter p).length = l.length) : ∀ m ∈ l, p m = true := by
  induction l with
  | nil => intro m hm; cases hm
  | cons x xs ih =>
    intro m hm
    by_cases hx : p x = true
    · rcases List.mem_cons.mp hm with rfl | hmem
      · exact hx
      · refine ih ?_ m hmem
        simpa [List.filter_cons, hx] using h
    · exfalso
      have hle : (List.filter p xs).length ≤ xs.length := List.length_filter_le _ _
      simp [List.filter_cons, hx] at h
      omega

lemma filter_eq_self_of_all {l : List Milestone} {p : Milestone → Bool}
    (h : ∀ m ∈ l, p m = true) : l.filter p = l := by
  induction l with
  | nil => rfl
  | cons x xs ih =>
    have hx := h x (by simp)
    simp [List.filter_cons, hx, ih fun m hm => h m (by simp [hm])]

lemma filterMap_completedAt_eq {l : List Milestone}
    (h : ∀ m ∈ l, m.completedAt.isSome = true) :
    (l.filterMap fun m => m.completedAt) = l.map fun m => m.completedAt.getD 0 := by
  induction l with
  | nil => rfl
  | cons x xs ih =>
    have hx := h x (by simp)
    cases hax : x.completedAt with
    | none => rw [hax] at hx; cases hx
    | some v =>
      simp [List.filterMap_cons, hax, ih fun m hm => h m (by simp [hm])]

lemma milestoneInv_updateMilestone (now mid : Nat) (m : Milestone)
    (h : milestoneInv m) : milestoneInv (updateMilestone now mid m) := by
  unfold updateMilestone
  split_ifs with hid
  · unfold milestoneInv
    cases m.completed <;> simp
  · exact h

lemma toggleMilestoneInTeam_milestones (now st mid : Nat) (t : Team) :
    (toggleMilestoneInTeam now st mid t).milestones
      = t.milestones.map (updateMilestone now mid) := rfl

lemma toggleMilestoneInTeam_id (now st mid : Nat) (t : Team) :
    (toggleMilestoneInTeam now st mid t).id = t.id := rfl

lemma toggleMilestoneInTeam_name (now st mid : Nat) (t : Team) :
    (toggleMilestoneInTeam now st mid t).name = t.name := rfl

lemma teamInv_toggleMilestoneInTeam {t : Team} (now st mid : Nat)
    (h : teamInv t) : teamInv (toggleMilestoneInTeam now st mid t) := by
  intro m hm
  rw [toggleMilestoneInTeam_milestones] at hm
  obtain ⟨m0, hm0, rfl⟩ := List.mem_map.mp hm
  exact milestoneInv_updateMilestone _ _ _ (h m0 hm0)

lemma teamsInv_toggleMilestone {ts : List Team} (now st tid mid : Nat)
    (h : teamsInv ts) : teamsInv (toggleMilestone now st tid mid ts) := by
  intro t ht
  obtain ⟨t0, ht0, rfl⟩ := List.mem_map.mp ht
  by_cases hid : t0.id = tid
  · simpa [hid] using teamInv_toggleMilestoneInTeam now st mid (h t0 ht0)
  · simpa [hid] using h t0 ht0

lemma teamInv_initial : teamInv
    { id := 0, name := "", milestones := INITIAL_MILESTONES, totalTime := 0 } := by
  decide

lemma teamsInv_addTeam {ts : List Team} (now : Nat) (name : String)
    (h : teamsInv ts) : teamsInv (addTeam now name ts) := by
  unfold addTeam
  split_ifs with hname
  · intro t ht
    rcases List.mem_append.mp ht with hmem | hmem
    · exact h t hmem
    · rw [List.mem_singleton] at hmem
      subst hmem
      intro m hm
      exact teamInv_initial m hm
  · exact h

/-! ### Concrete milestones and teams used in counterexamples and witnesses -/

/-- A completed milestone with stamp `stamp`. -/
def msDone (i stamp : Nat) : Milestone :=
  { id := i, title := "m", subtitle := "s", completed := true,
    completedAt := some stamp }

/-- A not-yet-completed milestone. -/
def msTodo (i : Nat) : Milestone :=
  { id := i, title := "m", subtitle := "s", completed := false,
    completedAt := none }

/-- First team of the comparator tie: one completion at time 100. -/
def teamTieA : Team :=
  { id := 1, name := "A", milestones := [msDone 1 100, msTodo 2, msTodo 3],
    totalTime := 0 }

/-- Second team of the comparator tie: a distinct team, same completion
count and same latest completion time. -/
def teamTieB : Team :=
  { id := 2, name := "B", milestones := [msDone 1 100, msTodo 2, msTodo 3],
    totalTime := 0 }

/-- Sample team: one completion at time 10. -/
def teamW1 : Team :=
  { id := 1, name := "w1", milestones := [msDone 1 10, msTodo 2, msTodo 3],
    totalTime := 0 }

/-- Sample team: one completion at time 20. -/
def teamW2 : Team :=
  { id := 2, name := "w2", milestones := [msDone 1 20, msTodo 2, msTodo 3],
    totalTime := 0 }

/-- Sample team: one completion at time 30. -/
def teamW3 : Team :=
  { id := 3, name := "w3", milestones := [msDone 1 30, msTodo 2, msTodo 3],
    totalTime := 0 }

/-- Sample team with no completions. -/
def teamW0 : Team :=
  { id := 4, name := "w0", milestones := [msTodo 1, msTodo 2, msTodo 3],
    totalTime := 0 }

/-! ### Claim C1 -/

/-- C1 counterexample: two distinct teams with the same completion count
and the same latest completion timestamp compare as a tie, so neither
A before B nor B before A holds - the comparator is not a strict total
order on all pairs of distinct teams. -/
theorem C1_counterexample :
    teamTieA ≠ teamTieB ∧
    ¬((rankCompare teamTieA teamTieB < 0 ∧ ¬rankCompare teamTieB teamTieA < 0) ∨
      (rankCompare teamTieB teamTieA < 0 ∧ ¬rankCompare teamTieA teamTieB < 0)) := by
  decide

/-- C1 (amended): over teams satisfying the completedAt/completed
invariant, the comparator is deterministic, sign-antisymmetric and
transitive, and exactly one of A before B, B before A holds whenever the
comparison is nonzero; the comparison is zero exactly when the two teams
agree on the deciding key (equal completed counts and, with completions,
equal latest completion timestamps, or, with none, equal numeric
identifiers) - so distinct teams can tie. -/
theorem C1_rank_order_amended (a b c : Team)
    (ha : teamInv a) (hb : teamInv b) (hc : teamInv c) :
    rankCompare a b = -(rankCompare b a) ∧
    (rankCompare a b < 0 → rankCompare b c < 0 → rankCompare a c < 0) ∧
    (rankCompare a b ≠ 0 →
      ((rankCompare a b < 0 ∧ ¬rankCompare b a < 0) ∨
       (rankCompare b a < 0 ∧ ¬rankCompare a b < 0))) ∧
    (rankCompare a b = 0 ↔ (completedCount a = completedCount b ∧
      ((0 < completedCount a ∧ latestCompletion a = latestCompletion b) ∨
       (completedCount a = 0 ∧ a.id = b.id)))) := by
  refine ⟨rankCompare_neg a b, rankCompare_trans ha hb hc, ?_, ?_⟩
  · intro hne
    have hneg := rankCompare_neg a b
    omega
  · rw [rankCompare_eq ha hb]
    split_ifs <;> omega

/-- C1 witness: the amended order applied to three concrete invariant
teams, chaining two strict comparisons through transitivity. -/
theorem C1_witness : rankCompare teamW1 teamW3 < 0 :=
  (C1_rank_order_amended teamW1 teamW2 teamW3
    (by decide) (by decide) (by decide)).2.1 (by decide) (by decide)

/-! ### Claim C2 -/

/-- C2: for every pair of teams the comparator orders by completed count
descending; on equal counts, when both sides have a timestamped completed
milestone, by latest completion timestamp ascending; otherwise by numeric
creation identifier ascending. -/
theorem C2_compare_keys (a b : Team) :
    (completedCount b < completedCount a → rankCompare a b < 0) ∧
    (completedCount a < completedCount b → 0 < rankCompare a b) ∧
    (completedCount a = completedCount b →
      0 < (completedWithTime a).length → 0 < (completedWithTime b).length →
      rankCompare a b = (latestCompletion a : Int) - (latestCompletion b : Int)) ∧
    (completedCount a = completedCount b →
      ¬(0 < (completedWithTime a).length ∧ 0 < (completedWithTime b).length) →
      rankCompare a b = (a.id : Int) - (b.id : Int)) := by
  simp only [rankCompare]
  refine ⟨?_, ?_, ?_, ?_⟩ <;> intros <;> split_ifs <;> omega

/-- C2 witness: a team with more completions ranks before a team with
none, by the primary key. -/
theorem C2_witness : rankCompare teamW1 teamW0 < 0 :=
  (C2_compare_keys teamW1 teamW0).1 (by decide)

/-! ### Claim C3 -/

lemma toggleMilestoneInTeam_totalTime (now st mid : Nat) (t : Team) :
    (toggleMilestoneInTeam now st mid t).totalTime =
      if (completedWithTime (toggleMilestoneInTeam now st mid t)).length = 3 then
        (latestCompletion (toggleMilestoneInTeam now st mid t) : Int) - (st : Int)
      else 0 := rfl

lemma all_completed_of_totalTime {now st mid : Nat} {t t' : Team}
    (h1 : teamInv t) (h2 : t.milestones.length = 3)
    (ht' : t' = toggleMilestoneInTeam now st mid t)
    (h : t'.totalTime ≠ 0) : ∀ m ∈ t'.milestones, m.completed = true := by
  have hinv : teamInv t' := ht' ▸ teamInv_toggleMilestoneInTeam now st mid h1
  have hlen : t'.milestones.length = 3 := by
    rw [ht', toggleMilestoneInTeam_milestones, List.length_map]; exact h2
  rw [ht', toggleMilestoneInTeam_totalTime] at h
  by_cases hc : (completedWithTime (toggleMilestoneInTeam now st mid t)).length = 3
  · rw [← ht'] at hc
    rw [completedWithTime_eq_filter hinv] at hc
    exact all_of_length_filter_eq (by rw [hc, hlen])
  · rw [if_neg hc] at h
    exact absurd rfl h

lemma totalTime_of_all_completed {now st mid : Nat} {t t' : Team}
    (h1 : teamInv t) (h2 : t.milestones.length = 3)
    (ht' : t' = toggleMilestoneInTeam now st mid t)
    (h : ∀ m ∈ t'.milestones, m.completed = true) :
    t'.totalTime = (maxCompletedAt t' : Int) - (st : Int) := by
  have hinv : teamInv t' := ht' ▸ teamInv_toggleMilestoneInTeam now st mid h1
  have hlen : t'.milestones.length = 3 := by
    rw [ht', toggleMilestoneInTeam_milestones, List.length_map]; exact h2
  have hcwt : completedWithTime t' = t'.milestones := by
    rw [completedWithTime_eq_filter hinv]
    exact filter_eq_self_of_all h
  have hsome : ∀ m ∈ t'.milestones, m.completedAt.isSome = true := by
    intro m hm
    rw [hinv m hm]
    exact h m hm
  have htt : t'.totalTime = if (completedWithTime t').length = 3 then
      (latestCompletion t' : Int) - (st : Int) else 0 := by
    rw [ht']; exact toggleMilestoneInTeam_totalTime now st mid t
  rw [htt, if_pos (by rw [hcwt]; exact hlen)]
  have hmax : latestCompletion t' = maxCompletedAt t' := by
    unfold latestCompletion maxCompletedAt
    rw [hcwt, filterMap_completedAt_eq hsome]
  rw [hmax]

/-- The state reached by adding one team at time 50 and toggling its three
milestones at time 100, with the session started at time 100. -/
def c3State : List Team :=
  toggleMilestone 100 100 50 3
    (toggleMilestone 100 100 50 2
      (toggleMilestone 100 100 50 1 (addTeam 50 "Alpha" [])))

/-- The single team of `c3State`. -/
def c3Team : Team :=
  c3State.headD { id := 0, name := "", milestones := [], totalTime := 0 }

/-- C3 counterexample: a team reached purely through addTeam and
toggleMilestone has every milestone completed yet totalTime zero, because
its last completion instant coincides with the session start; nonzero
totalTime is not equivalent to full completion. -/
theorem C3_counterexample :
    c3State = [c3Team] ∧
    c3Team.milestones.all (fun m => m.completed) = true ∧
    c3Team.totalTime = 0 ∧
    ¬(c3Team.totalTime ≠ 0 ↔ c3Team.milestones.all (fun m => m.completed) = true) := by
  decide

/-- C3 (amended): after a toggle on a team satisfying the invariant with
the three-milestone template shape, nonzero totalTime implies every
milestone is completed; conversely, when every milestone is completed,
totalTime equals the latest completion timestamp minus the session start,
which is nonzero exactly when those two instants differ. -/
theorem C3_totalTime_amended (now st mid : Nat) (t t' : Team)
    (h1 : teamInv t) (h2 : t.milestones.length = 3)
    (ht' : t' = toggleMilestoneInTeam now st mid t) :
    (t'.totalTime ≠ 0 → ∀ m ∈ t'.milestones, m.completed = true) ∧
    ((∀ m ∈ t'.milestones, m.completed = true) →
      t'.totalTime = (maxCompletedAt t' : Int) - (st : Int)) ∧
    ((∀ m ∈ t'.milestones, m.completed = true) →
      maxCompletedAt t' ≠ st → t'.totalTime ≠ 0) := by
  refine ⟨fun h => all_completed_of_totalTime h1 h2 ht' h,
    fun h => totalTime_of_all_completed h1 h2 ht' h, fun h hne => ?_⟩
  have := totalTime_of_all_completed h1 h2 ht' h
  omega

/-- C3 witness: toggling the last open milestone at time 30 with session
start 5 yields nonzero totalTime, through the amended equivalence. -/
theorem C3_witness :
    (toggleMilestoneInTeam 30 5 3
      { id := 1, name := "w", milestones := [msDone 1 10, msDone 2 20, msTodo 3],
        totalTime := 0 }).totalTime ≠ 0 :=
  (C3_totalTime_amended 30 5 3
      { id := 1, name := "w", milestones := [msDone 1 10, msDone 2 20, msTodo 3],
        totalTime := 0 }
      _ (by decide) (by decide) rfl).2.2 (by decide) (by decide)

/-! ### Claim C4 -/

/-- C4: after a toggle that targets an existing milestone of an invariant,
template-shaped team, at a wall-clock instant not before the session
start, a nonzero totalTime equals the maximum completedAt timestamp among
the milestones minus the session start, and is non-negative. -/
theorem C4_totalTime_value (now st mid : Nat) (t t' : Team)
    (h1 : teamInv t) (h2 : t.milestones.length = 3) (h3 : st ≤ now)
    (h4 : ∃ m ∈ t.milestones, m.id = mid)
    (ht' : t' = toggleMilestoneInTeam now st mid t)
    (h5 : t'.totalTime ≠ 0) :
    t'.totalTime = (maxCompletedAt t' : Int) - (st : Int) ∧ 0 ≤ t'.totalTime := by
  have hall : ∀ m ∈ t'.milestones, m.completed = true :=
    all_completed_of_totalTime h1 h2 ht' h5
  have heq : t'.totalTime = (maxCompletedAt t' : Int) - (st : Int) :=
    totalTime_of_all_completed h1 h2 ht' hall
  refine ⟨heq, ?_⟩
  obtain ⟨m, hm, hmid⟩ := h4
  have hmem : updateMilestone now mid m ∈ t'.milestones := by
    rw [ht', toggleMilestoneInTeam_milestones]
    exact List.mem_map_of_mem _ hm
  cases hcm : m.completed with
  | true =>
    exfalso
    have hfalse : (updateMilestone now mid m).completed = false := by
      unfold updateMilestone
      rw [if_pos hmid, hcm]
      rfl
    have := hall _ hmem
    rw [hfalse] at this
    cases this
  | false =>
    have hat : (updateMilestone now mid m).completedAt = some now := by
      unfold updateMilestone
      rw [if_pos hmid, hcm]
      rfl
    have hnowmem : now ∈ t'.milestones.filterMap fun m => m.completedAt := by
      rw [List.mem_filterMap]
      exact ⟨updateMilestone now mid m, hmem, hat⟩
    have hle : now ≤ maxCompletedAt t' := le_listMax hnowmem
    omega

/-- C4 witness: a concrete toggle completing the third milestone at
time 30 with session start 5 gives totalTime 25 = 30 - 5 and
non-negative. -/
theorem C4_witness :
    (toggleMilestoneInTeam 30 5 3
      { id := 1, name := "w4", milestones := [msDone 1 10, msDone 2 20, msTodo 3],
        totalTime := 0 }).totalTime =
      (maxCompletedAt (toggleMilestoneInTeam 30 5 3
        { id := 1, name := "w4", milestones := [msDone 1 10, msDone 2 20, msTodo 3],
          totalTime := 0 }) : Int) - (5 : Int) ∧
    0 ≤ (toggleMilestoneInTeam 30 5 3
      { id := 1, name := "w4", milestones := [msDone 1 10, msDone 2 20, msTodo 3],
        totalTime := 0 }).totalTime :=
  C4_totalTime_value 30 5 3
    { id := 1, name := "w4", milestones := [msDone 1 10, msDone 2 20, msTodo 3],
      totalTime := 0 }
    _ (by decide) (by decide) (by decide) (by decide) rfl (by decide)

/-! ### Claim C5 -/

/-- Registry used by several witnesses: one fresh team. -/
def tsW : List Team :=
  [{ id := 1, name := "w", milestones := INITIAL_MILESTONES, totalTime := 0 }]

/-- C5: the completedAt-present-iff-completed invariant is preserved by
toggleMilestone, addTeam and the reset handler, and the toggled milestone
gets completedAt stamped with the current time on the transition to
completed and cleared on the transition to not completed. -/
theorem C5_invariant (now startTime teamId milestoneId : Nat) (name : String)
    (ts : List Team) (s : AppState) (m : Milestone) (h : teamsInv ts) :
    teamsInv (toggleMilestone now startTime teamId milestoneId ts) ∧
    teamsInv (addTeam now name ts) ∧
    teamsInv (handleResetData s).teams ∧
    (m.id = milestoneId →
      (updateMilestone now milestoneId m).completed = !m.completed ∧
      (updateMilestone now milestoneId m).completedAt =
        (if m.completed then none else some now)) := by
  refine ⟨teamsInv_toggleMilestone now startTime teamId milestoneId h,
    teamsInv_addTeam now name h, ?_, ?_⟩
  · intro t ht
    cases ht
  · intro hid
    unfold updateMilestone
    rw [if_pos hid]
    cases m.completed <;> exact ⟨rfl, rfl⟩

/-- C5 witness: the invariant holds after a concrete toggle on a fresh
registry, and the toggled milestone is stamped with the current time. -/
theorem C5_witness :
    teamsInv (toggleMilestone 7 0 1 2 tsW) ∧
    (updateMilestone 7 2 (msTodo 2)).completedAt = some 7 := by
  have h := C5_invariant 7 0 1 2 "x" tsW
    { teams := [], storedTeams := StoredValue.missing, timer := 0,
      timerStarted := false }
    (msTodo 2) (by decide)
  exact ⟨h.1, (h.2.2.2 rfl).2⟩

/-! ### Claim C6 -/

/-- C6: after the reset handler runs, the registry reads empty, the
persisted entry is removed (and the following persist effect stores the
empty registry, which loads back as the empty team set), and the session
timer reports elapsed 0 at every wall-clock instant; the model applies
the reset as one indivisible transition. -/
theorem C6_reset (s : AppState) (now : Nat) :
    (handleResetData s).teams = [] ∧
    (handleResetData s).storedTeams = StoredValue.missing ∧
    loadStored (persistTeamsEffect (handleResetData s)).storedTeams = [] ∧
    elapsedOf (handleResetData s) now = 0 :=
  ⟨rfl, rfl, rfl, rfl⟩

/-! ### Claim C7 -/

/-- C7: addTeam on a name that trims to empty leaves the registry exactly
unchanged; on any other name it appends exactly one team whose identifier
is the creation instant, whose milestones are the template clone with
every completed flag false, and whose totalTime is 0. -/
theorem C7_addTeam (now : Nat) (name : String) (ts : List Team) :
    (jsTrim name = "" → addTeam now name ts = ts) ∧
    (jsTrim name ≠ "" →
      addTeam now name ts =
        ts ++ [{ id := now, name := jsTrim name,
                 milestones := INITIAL_MILESTONES, totalTime := 0 }] ∧
      (∀ m ∈ INITIAL_MILESTONES, m.completed = false)) := by
  constructor
  · intro h
    unfold addTeam
    rw [if_neg (by simp [h])]
  · intro h
    unfold addTeam
    rw [if_pos h]
    exact ⟨rfl, by decide⟩

/-- C7 witness: a whitespace-only name is a no-op; a padded name appends
one team with the trimmed name. -/
theorem C7_witness :
    addTeam 9 "   " [] = [] ∧
    addTeam 9 " Alpha " [] =
      [{ id := 9, name := "Alpha", milestones := INITIAL_MILESTONES,
         totalTime := 0 }] := by
  have h1 := (C7_addTeam 9 "   " []).1 (by decide)
  have h2 := (C7_addTeam 9 " Alpha " []).2 (by decide)
  refine ⟨h1, ?_⟩
  rw [h2.1]
  decide

/-! ### Claim C8 -/

lemma map_eq_self_of_mem {α : Type} {f : α → α} {l : List α}
    (h : ∀ a ∈ l, f a = a) : l.map f = l := by
  induction l with
  | nil => rfl
  | cons x xs ih =>
    simp [h x (by simp), ih fun a ha => h a (by simp [ha])]

lemma toggleMilestoneInTeam_eta (now st mid : Nat) (t : Team) :
    toggleMilestoneInTeam now st mid t =
      { id := t.id, name := t.name,
        milestones := t.milestones.map (updateMilestone now mid),
        totalTime := (toggleMilestoneInTeam now st mid t).totalTime } := by
  obtain ⟨i, n, ms, tt⟩ := t
  rfl

/-- A team reached in an earlier session: all three milestones completed
at time 100, while its stored totalTime (0) was computed against a
different session start. -/
def c8Team : Team :=
  { id := 1, name := "stale",
    milestones := [msDone 1 100, msDone 2 100, msDone 3 100], totalTime := 0 }

/-- C8 counterexample: a toggle naming an existing team but a nonexistent
milestone id still rewrites the team record, because totalTime is
recomputed against the current session start even when no milestone
matches. -/
theorem C8_counterexample :
    (∀ m ∈ c8Team.milestones, m.id ≠ 99) ∧
    toggleMilestone 200 150 1 99 [c8Team] ≠ [c8Team] := by
  decide

/-- C8 (amended): a toggle whose teamId matches no team leaves the
registry exactly unchanged; a toggle whose teamId matches but whose
milestoneId matches no milestone of that team leaves the identifier, name
and every milestone unchanged but recomputes totalTime from the current
session start, so that team record is unchanged exactly when its stored
totalTime already equals that recomputation; no error is signalled in
either case. -/
theorem C8_missing_reference_amended (now startTime teamId milestoneId : Nat)
    (ts : List Team) (t : Team)
    (hm : ∀ m ∈ t.milestones, m.id ≠ milestoneId) :
    ((∀ u ∈ ts, u.id ≠ teamId) →
      toggleMilestone now startTime teamId milestoneId ts = ts) ∧
    ((toggleMilestoneInTeam now startTime milestoneId t).milestones
        = t.milestones ∧
      (toggleMilestoneInTeam now startTime milestoneId t).id = t.id ∧
      (toggleMilestoneInTeam now startTime milestoneId t).name = t.name ∧
      (toggleMilestoneInTeam now startTime milestoneId t).totalTime =
        (if (completedWithTime t).length = 3 then
          (latestCompletion t : Int) - (startTime : Int) else 0)) ∧
    (t.totalTime =
        (if (completedWithTime t).length = 3 then
          (latestCompletion t : Int) - (startTime : Int) else 0) →
      toggleMilestoneInTeam now startTime milestoneId t = t) := by
  have hmap : t.milestones.map (updateMilestone now milestoneId) = t.milestones :=
    map_eq_self_of_mem fun m hmm => by
      unfold updateMilestone
      rw [if_neg (hm m hmm)]
  have hmils : (toggleMilestoneInTeam now startTime milestoneId t).milestones
      = t.milestones := by
    rw [toggleMilestoneInTeam_milestones, hmap]
  have hcwt : completedWithTime (toggleMilestoneInTeam now startTime milestoneId t)
      = completedWithTime t := by
    unfold completedWithTime
    rw [hmils]
  have hlat : latestCompletion (toggleMilestoneInTeam now startTime milestoneId t)
      = latestCompletion t := by
    unfold latestCompletion
    rw [hcwt]
  have htt : (toggleMilestoneInTeam now startTime milestoneId t).totalTime =
      (if (completedWithTime t).length = 3 then
        (latestCompletion t : Int) - (startTime : Int) else 0) := by
    rw [toggleMilestoneInTeam_totalTime, hcwt, hlat]
  refine ⟨?_, ⟨hmils, rfl, rfl, htt⟩, ?_⟩
  · intro hno
    unfold toggleMilestone
    exact map_eq_self_of_mem fun u hu => by rw [if_neg (hno u hu)]
  · intro heqtt
    rw [toggleMilestoneInTeam_eta now startTime milestoneId t, hmap]
    rw [show (toggleMilestoneInTeam now startTime milestoneId t).totalTime
        = t.totalTime from by rw [htt, heqtt]]

/-- C8 witness: a toggle with an unknown team id is a no-op, through the
amended statement. -/
theorem C8_witness : toggleMilestone 5 0 42 99 tsW = tsW :=
  (C8_missing_reference_amended 5 0 42 99 tsW c8Team (by decide)).1 (by decide)

/-! ### Claim C9 -/

/-- C9: serializing a team set to the persisted form and loading it back
reproduces the team set exactly (in particular every completed boolean
and every completedAt timestamp); a missing entry and a malformed entry
both load as the empty team set. -/
theorem C9_round_trip (ts : List Team) :
    loadStored (StoredValue.teams (storeTeams ts)) = ts ∧
    loadStored StoredValue.missing = [] ∧
    loadStored StoredValue.malformed = [] := by
  refine ⟨?_, rfl, rfl⟩
  show (storeTeams ts).map loadTeam = ts
  unfold storeTeams
  rw [List.map_map]
  have hcomp : loadTeam ∘ storeTeam = id := funext loadTeam_storeTeam
  rw [hcomp, List.map_id]

/-! ### Claim C10 -/

/-- C10: a toggle changes at most the completed flag and completedAt of
milestones matching the targeted milestone id inside teams matching the
targeted team id, plus those teams' totalTime: every team at a position
whose id differs is unchanged, and inside a matching team the id, name
and every milestone with a different id - including its title, subtitle,
completed and completedAt - are unchanged. -/
theorem C10_frame (now startTime teamId milestoneId : Nat) (ts : List Team)
    (i : Nat) (t : Team) (hi : ts[i]? = some t) :
    ∃ t' : Team, (toggleMilestone now startTime teamId milestoneId ts)[i]? = some t' ∧
      (t.id ≠ teamId → t' = t) ∧
      t'.id = t.id ∧ t'.name = t.name ∧
      t'.milestones.length = t.milestones.length ∧
      (∀ (j : Nat) (m : Milestone), t.milestones[j]? = some m →
        ∃ m' : Milestone, t'.milestones[j]? = some m' ∧
          (m.id ≠ milestoneId → m' = m) ∧
          m'.id = m.id ∧ m'.title = m.title ∧ m'.subtitle = m.subtitle) := by
  by_cases hid : t.id = teamId
  · refine ⟨toggleMilestoneInTeam now startTime milestoneId t, ?_, ?_, rfl, rfl, ?_, ?_⟩
    · unfold toggleMilestone
      rw [List.getElem?_map, hi]
      simp [hid]
    · intro hne
      exact absurd hid hne
    · rw [toggleMilestoneInTeam_milestones, List.length_map]
    · intro j m hj
      refine ⟨updateMilestone now milestoneId m, ?_, ?_, ?_, ?_, ?_⟩
      · rw [toggleMilestoneInTeam_milestones, List.getElem?_map, hj]
        rfl
      · intro hne
        unfold updateMilestone
        rw [if_neg hne]
      · unfold updateMilestone
        split_ifs <;> rfl
      · unfold updateMilestone
        split_ifs <;> rfl
      · unfold updateMilestone
        split_ifs <;> rfl
  · refine ⟨t, ?_, fun _ => rfl, rfl, rfl, rfl, ?_⟩
    · unfold toggleMilestone
      rw [List.getElem?_map, hi]
      simp [hid]
    · intro j m hj
      exact ⟨m, hj, fun _ => rfl, rfl, rfl, rfl⟩

/-- C10 witness: the frame property applied to a concrete registry and a
concrete toggle. -/
theorem C10_witness :
    ∃ t' : Team, (toggleMilestone 7 0 1 2 tsW)[0]? = some t' ∧
      ((tsW.headD c8Team).id ≠ 1 → t' = tsW.headD c8Team) ∧
      t'.id = (tsW.headD c8Team).id ∧ t'.name = (tsW.headD c8Team).name ∧
      t'.milestones.length = (tsW.headD c8Team).milestones.length ∧
      (∀ (j : Nat) (m : Milestone), (tsW.headD c8Team).milestones[j]? = some m →
        ∃ m' : Milestone, t'.milestones[j]? = some m' ∧
          (m.id ≠ 2 → m' = m) ∧
          m'.id = m.id ∧ m'.title = m.title ∧ m'.subtitle = m.subtitle) :=
  C10_frame 7 0 1 2 tsW 0 (tsW.headD c8Team) rfl
